import Mathlib

/-!
Verification of the tracee event decoding and derivation pipeline.

Shallow embedding of:
* the `bufferdecoder` package (`EbpfDecoder` and its decode primitives),
* the `derive` package (`Table.Register`, `Table.DeriveEvent`,
  `deriveMultipleEvents`, `buildDerivedEvent`),
* the argument assembly loop (`EbpfDecoder.DecodeArguments`).

Go machine integers are modelled as `Nat`/`Int` with explicit two-complement
reinterpretation where the source casts between signed and unsigned.  Byte
buffers are `List Nat` (well-formed buffers hold values `< 256`).  The decoder
cursor is an `Int`, as the Go field is a plain `int` that can become negative
through `MoveCursor`.  A Go runtime fault (slice bounds out of range) is made
explicit as a distinguished `fault` outcome.
-/

namespace Tracee

/-! ## Buffer decoder: state and errors -/

/-- `EbpfDecoder` state.  The `typeDecoder` field of the Go struct is omitted:
none of the modelled operations consult it. -/
structure Decoder where
  buffer : List Nat
  cursor : Int
deriving DecidableEq

/-- Decode-time errors.  `bufferTooShort` is `ErrBufferTooShort` with its
`expected`, `got` and `typeName` fields; the remaining constructors model the
`errfmt.Errorf` wrapping sites structurally (the claims never inspect the
formatted message text). -/
inductive DecodeError where
  | bufferTooShort (expected : Nat) (got : Nat) (typeName : String)
  | contextBufferTooSmall (got : Nat) (expected : Nat)
  | arrayLenReadFailed (inner : DecodeError)
  | elementReadFailed (index : Nat) (inner : DecodeError)
deriving DecidableEq

/-- Result of one decode call: success and failure both return the decoder that
the caller continues with (the Go methods mutate the receiver; on the failure
paths the receiver is untouched).  `fault` marks a Go runtime fault. -/
inductive DRes (α : Type) where
  | ok (val : α) (next : Decoder)
  | error (e : DecodeError) (next : Decoder)
  | fault
deriving DecidableEq

/-- Bounds condition of the Go slice expression `decoder.buffer[offset:]`:
outside it, Go raises a slice-bounds runtime fault. -/
def inBounds (d : Decoder) : Prop :=
  0 ≤ d.cursor ∧ d.cursor ≤ (d.buffer.length : Int)

instance (d : Decoder) : Decidable (inBounds d) := by
  unfold inBounds
  infer_instance

/-- The remaining suffix `decoder.buffer[offset:]`, in the in-bounds case. -/
def remaining (d : Decoder) : List Nat := d.buffer.drop d.cursor.toNat

/-- `binary.LittleEndian.UintN` over a byte list. -/
def leNat : List Nat → Nat
  | [] => 0
  | b :: rest => b + 256 * leNat rest

/-- `binary.BigEndian.UintN` over a byte list. -/
def beNat : List Nat → Nat
  | [] => 0
  | b :: rest => b * 256 ^ rest.length + beNat rest

/-- Two-complement reinterpretation of a `bits`-wide unsigned value, as in the
Go casts `int8(...)`, `int16(...)`, `int32(...)`, `int64(...)`. -/
def toSigned (bits : Nat) (v : Nat) : Int :=
  if v < 2 ^ (bits - 1) then (v : Int) else (v : Int) - 2 ^ bits

/-! ## Fixed-width decode primitives

Each mirrors the corresponding `EbpfDecoder` method: read the remaining
suffix `decoder.buffer[offset:]`, compare its length against `readAmount`,
fail with `makeBufferTooShortError` (leaving the decoder untouched) or read
the value and advance the cursor by `readAmount`. -/

/-- `EbpfDecoder.DecodeUint8`. -/
def DecodeUint8 (d : Decoder) : DRes Nat :=
  if inBounds d then
    if (remaining d).length < 1 then
      .error (.bufferTooShort 1 (remaining d).length "uint8") d
    else .ok ((remaining d).headD 0) { d with cursor := d.cursor + 1 }
  else .fault

/-- `EbpfDecoder.DecodeInt8`. -/
def DecodeInt8 (d : Decoder) : DRes Int :=
  if inBounds d then
    if (remaining d).length < 1 then
      .error (.bufferTooShort 1 (remaining d).length "int8") d
    else .ok (toSigned 8 ((remaining d).headD 0)) { d with cursor := d.cursor + 1 }
  else .fault

/-- `EbpfDecoder.DecodeUint16`. -/
def DecodeUint16 (d : Decoder) : DRes Nat :=
  if inBounds d then
    if (remaining d).length < 2 then
      .error (.bufferTooShort 2 (remaining d).length "uint16") d
    else .ok (leNat ((remaining d).take 2)) { d with cursor := d.cursor + 2 }
  else .fault

/-- `EbpfDecoder.DecodeUint16BigEndian`.  Note the source reuses the type name
`"uint16"` in its error. -/
def DecodeUint16BigEndian (d : Decoder) : DRes Nat :=
  if inBounds d then
    if (remaining d).length < 2 then
      .error (.bufferTooShort 2 (remaining d).length "uint16") d
    else .ok (beNat ((remaining d).take 2)) { d with cursor := d.cursor + 2 }
  else .fault

/-- `EbpfDecoder.DecodeInt16`. -/
def DecodeInt16 (d : Decoder) : DRes Int :=
  if inBounds d then
    if (remaining d).length < 2 then
      .error (.bufferTooShort 2 (remaining d).length "int16") d
    else .ok (toSigned 16 (leNat ((remaining d).take 2))) { d with cursor := d.cursor + 2 }
  else .fault

/-- `EbpfDecoder.DecodeUint32`. -/
def DecodeUint32 (d : Decoder) : DRes Nat :=
  if inBounds d then
    if (remaining d).length < 4 then
      .error (.bufferTooShort 4 (remaining d).length "uint32") d
    else .ok (leNat ((remaining d).take 4)) { d with cursor := d.cursor + 4 }
  else .fault

/-- `EbpfDecoder.DecodeUint32BigEndian`. -/
def DecodeUint32BigEndian (d : Decoder) : DRes Nat :=
  if inBounds d then
    if (remaining d).length < 4 then
      .error (.bufferTooShort 4 (remaining d).length "uint32 (big endian)") d
    else .ok (beNat ((remaining d).take 4)) { d with cursor := d.cursor + 4 }
  else .fault

/-- `EbpfDecoder.DecodeInt32`. -/
def DecodeInt32 (d : Decoder) : DRes Int :=
  if inBounds d then
    if (remaining d).length < 4 then
      .error (.bufferTooShort 4 (remaining d).length "int32") d
    else .ok (toSigned 32 (leNat ((remaining d).take 4))) { d with cursor := d.cursor + 4 }
  else .fault

/-- `EbpfDecoder.DecodeUint64`. -/
def DecodeUint64 (d : Decoder) : DRes Nat :=
  if inBounds d then
    if (remaining d).length < 8 then
      .error (.bufferTooShort 8 (remaining d).length "uint64") d
    else .ok (leNat ((remaining d).take 8)) { d with cursor := d.cursor + 8 }
  else .fault

/-- `EbpfDecoder.DecodeInt64`. -/
def DecodeInt64 (d : Decoder) : DRes Int :=
  if inBounds d then
    if (remaining d).length < 8 then
      .error (.bufferTooShort 8 (remaining d).length "int64") d
    else .ok (toSigned 64 (leNat ((remaining d).take 8))) { d with cursor := d.cursor + 8 }
  else .fault

/-- `EbpfDecoder.DecodeBool`. -/
def DecodeBool (d : Decoder) : DRes Bool :=
  if inBounds d then
    if (remaining d).length < 1 then
      .error (.bufferTooShort 1 (remaining d).length "bool") d
    else .ok ((remaining d).headD 0 != 0) { d with cursor := d.cursor + 1 }
  else .fault

/-- `EbpfDecoder.MoveCursor`: skip `n` bytes; when the move would pass the end
of the buffer, stay put and return the unchanged position (no error). -/
def MoveCursor (d : Decoder) (n : Int) : Int × Decoder :=
  if (d.buffer.length : Int) < d.cursor + n then (d.cursor, d)
  else (d.cursor + n, { d with cursor := d.cursor + n })

/-! ## Composite decoder: the event-context header -/

/-- The decoded event-context header, field for field as in
`bufferdecoder.EventContext`.  Unsigned fields are `Nat`; the fields the source
decodes through a signed cast (`EventID`, `Syscall`, `Retval`) are `Int`. -/
structure EventContext where
  Ts : Nat
  StartTime : Nat
  CgroupID : Nat
  Pid : Nat
  Tid : Nat
  Ppid : Nat
  HostPid : Nat
  HostTid : Nat
  HostPpid : Nat
  Uid : Nat
  MntID : Nat
  PidID : Nat
  Comm : List Nat
  UtsName : List Nat
  Flags : Nat
  LeaderStartTime : Nat
  ParentStartTime : Nat
  EventID : Int
  Syscall : Int
  Retval : Int
  StackID : Nat
  ProcessorId : Nat
  PoliciesVersion : Nat
  MatchedPolicies : Nat
deriving DecidableEq

/-- Modelled from the spec: `EventContext.GetSizeBytes` is declared outside
`src/`; the spec fixes the total fixed size of the header at 144 bytes. -/
def EventContext.GetSizeBytes : Nat := 144

/-- The Go slice expression `rest[a:b]` on an in-bounds suffix. -/
def goSlice (l : List Nat) (a b : Nat) : List Nat := (l.drop a).take (b - a)

/-- `EbpfDecoder.DecodeContext`: one bounds check against the fixed 144-byte
size, then every field read at its fixed offset, then the cursor advanced by
the fixed size.  The error branch leaves the decoder untouched and yields no
context value. -/
def DecodeContext (d : Decoder) : DRes EventContext :=
  if inBounds d then
    if (remaining d).length < EventContext.GetSizeBytes then
      .error (.contextBufferTooSmall (remaining d).length EventContext.GetSizeBytes) d
    else
      .ok
        { Ts := leNat (goSlice (remaining d) 0 8)
          StartTime := leNat (goSlice (remaining d) 8 16)
          CgroupID := leNat (goSlice (remaining d) 16 24)
          Pid := leNat (goSlice (remaining d) 24 28)
          Tid := leNat (goSlice (remaining d) 28 32)
          Ppid := leNat (goSlice (remaining d) 32 36)
          HostPid := leNat (goSlice (remaining d) 36 40)
          HostTid := leNat (goSlice (remaining d) 40 44)
          HostPpid := leNat (goSlice (remaining d) 44 48)
          Uid := leNat (goSlice (remaining d) 48 52)
          MntID := leNat (goSlice (remaining d) 52 56)
          PidID := leNat (goSlice (remaining d) 56 60)
          Comm := goSlice (remaining d) 60 76
          UtsName := goSlice (remaining d) 76 92
          Flags := leNat (goSlice (remaining d) 92 96)
          LeaderStartTime := leNat (goSlice (remaining d) 96 104)
          ParentStartTime := leNat (goSlice (remaining d) 104 112)
          EventID := toSigned 32 (leNat (goSlice (remaining d) 112 116))
          Syscall := toSigned 32 (leNat (goSlice (remaining d) 116 120))
          Retval := toSigned 64 (leNat (goSlice (remaining d) 120 128))
          StackID := leNat (goSlice (remaining d) 128 132)
          ProcessorId := leNat (goSlice (remaining d) 132 134)
          PoliciesVersion := leNat (goSlice (remaining d) 134 136)
          MatchedPolicies := leNat (goSlice (remaining d) 136 144) }
        { d with cursor := d.cursor + (EventContext.GetSizeBytes : Int) }
  else .fault

/-! ## Spec-side encoder for the context header

Written from the byte-layout table of the spec, independently of
`DecodeContext`, to state the round-trip property. -/

/-- Little-endian encoding of `v` into `w` bytes. -/
def leBytes : Nat → Nat → List Nat
  | 0, _ => []
  | w + 1, v => v % 256 :: leBytes w (v / 256)

/-- Encoding of an `Int` field as its `bits`-wide two-complement residue. -/
def encSigned (bits : Nat) (x : Int) : Nat := (x % (2 ^ bits : Nat)).toNat

/-- Spec-side encoder of the 144-byte event-context header, block by block in
the order and widths of the layout table. -/
def encodeContext (c : EventContext) : List Nat :=
  leBytes 8 c.Ts ++ leBytes 8 c.StartTime ++ leBytes 8 c.CgroupID ++
  leBytes 4 c.Pid ++ leBytes 4 c.Tid ++ leBytes 4 c.Ppid ++ leBytes 4 c.HostPid ++
  leBytes 4 c.HostTid ++ leBytes 4 c.HostPpid ++ leBytes 4 c.Uid ++ leBytes 4 c.MntID ++
  leBytes 4 c.PidID ++ c.Comm ++ c.UtsName ++ leBytes 4 c.Flags ++
  leBytes 8 c.LeaderStartTime ++ leBytes 8 c.ParentStartTime ++
  leBytes 4 (encSigned 32 c.EventID) ++ leBytes 4 (encSigned 32 c.Syscall) ++
  leBytes 8 (encSigned 64 c.Retval) ++ leBytes 4 c.StackID ++
  leBytes 2 c.ProcessorId ++ leBytes 2 c.PoliciesVersion ++ leBytes 8 c.MatchedPolicies

/-- Field-value ranges under which the header is representable: each unsigned
field below its width bound, each signed field within its two-complement
range, and the two fixed-size byte arrays of length 16. -/
def EventContext.WF (c : EventContext) : Prop :=
  c.Ts < 2 ^ 64 ∧ c.StartTime < 2 ^ 64 ∧ c.CgroupID < 2 ^ 64 ∧
  c.Pid < 2 ^ 32 ∧ c.Tid < 2 ^ 32 ∧ c.Ppid < 2 ^ 32 ∧ c.HostPid < 2 ^ 32 ∧
  c.HostTid < 2 ^ 32 ∧ c.HostPpid < 2 ^ 32 ∧ c.Uid < 2 ^ 32 ∧ c.MntID < 2 ^ 32 ∧
  c.PidID < 2 ^ 32 ∧ c.Comm.length = 16 ∧ c.UtsName.length = 16 ∧
  c.Flags < 2 ^ 32 ∧ c.LeaderStartTime < 2 ^ 64 ∧ c.ParentStartTime < 2 ^ 64 ∧
  -(2 ^ 31) ≤ c.EventID ∧ c.EventID < 2 ^ 31 ∧
  -(2 ^ 31) ≤ c.Syscall ∧ c.Syscall < 2 ^ 31 ∧
  -(2 ^ 63) ≤ c.Retval ∧ c.Retval < 2 ^ 63 ∧
  c.StackID < 2 ^ 32 ∧ c.ProcessorId < 2 ^ 16 ∧ c.PoliciesVersion < 2 ^ 16 ∧
  c.MatchedPolicies < 2 ^ 64

instance (c : EventContext) : Decidable c.WF := by
  unfold EventContext.WF
  infer_instance

/-! ## Variable-width decoder: length-prefixed uint64 array -/

/-- Result of `DecodeUint64Array`: the Go method both mutates `*msg` (the
growable destination) and returns an error, so both are carried on the error
path as well. -/
inductive ArrRes where
  | ok (msg : List Nat) (next : Decoder)
  | error (e : DecodeError) (msg : List Nat) (next : Decoder)
  | fault
deriving DecidableEq

/-- The element loop of `EbpfDecoder.DecodeUint64Array`: `count` remaining
iterations, `i` the running loop index (used in the error), appending each
decoded element to `msg`. -/
def decodeU64Loop : Nat → Nat → Decoder → List Nat → ArrRes
  | 0, _, d, msg => .ok msg d
  | count + 1, i, d, msg =>
    match DecodeUint64 d with
    | .ok element d2 => decodeU64Loop count (i + 1) d2 (msg ++ [element])
    | .error e d2 => .error (.elementReadFailed i e) msg d2
    | .fault => .fault

/-- `EbpfDecoder.DecodeUint64Array`: decode a 16-bit element count, then that
many uint64 elements, appending them to `msg`. -/
def DecodeUint64Array (d : Decoder) (msg : List Nat) : ArrRes :=
  match DecodeUint16 d with
  | .ok arrLen d2 => decodeU64Loop arrLen 0 d2 msg
  | .error e d2 => .error (.arrayLenReadFailed e) msg d2
  | .fault => .fault

/-! ## Event data model

Modelled from the spec: `trace.Event`, `trace.Argument`, `trace.ArgMeta` and
`events.DataField` are declared outside `src/`.  The spec (data model section)
lists the Event attributes: numeric identifier, human-readable name,
timestamp, process/thread/container identity, return value, ordered argument
list, stack-trace placeholder, matched-policies bookkeeping and policy-set
version. -/

/-- A dynamically-typed Go value (an `any`), as carried by `Argument.Value`,
`DataField.Zero` and derivation argument tuples.  `nil` is the Go nil
interface value, which the assembly loop tests against. -/
inductive GoVal where
  | nil
  | num (n : Int)
  | str (s : String)
deriving DecidableEq

/-- `trace.ArgMeta`: argument name and declared type tag.  (`Typ` renders the
Go field `Type`, which is a reserved word here.) -/
structure ArgMeta where
  Name : String
  Typ : String
deriving DecidableEq

/-- `events.DataField`: schema metadata plus the declared zero value. -/
structure DataField where
  ArgMeta : ArgMeta
  Zero : GoVal
deriving DecidableEq

/-- `trace.Argument`: metadata plus the decoded value. -/
structure Argument where
  ArgMeta : ArgMeta
  Value : GoVal
deriving DecidableEq

/-- Go slices are shared by reference; the `MatchedPolicies` slice of an Event
is the one slice-typed field whose sharing the derivation code manages, so it
is modelled as an optional reference into an explicit heap of string lists
(`none` is the nil slice).  `next` is the next fresh reference. -/
structure PolicyHeap where
  next : Nat
  cells : Nat → List String

/-- Read the list behind a reference. -/
def PolicyHeap.read (h : PolicyHeap) (r : Nat) : List String := h.cells r

/-- Allocate a fresh slice holding `v` (models `make` + `copy`). -/
def PolicyHeap.alloc (h : PolicyHeap) (v : List String) : Nat × PolicyHeap :=
  (h.next, { next := h.next + 1, cells := fun i => if i = h.next then v else h.cells i })

/-- In-place mutation of the list behind a reference (models a later pipeline
stage writing through the slice). -/
def PolicyHeap.write (h : PolicyHeap) (r : Nat) (v : List String) : PolicyHeap :=
  { h with cells := fun i => if i = r then v else h.cells i }

/-- `trace.Event`, restricted to the fields the derivation engine reads or
writes, plus representative shallow-copied context fields (timestamp and
process/thread/container identity, standing for all fields the derivation
copies unchanged). -/
structure Event where
  EventID : Int
  EventName : String
  Timestamp : Int
  ProcessID : Int
  ThreadID : Int
  ContainerID : String
  ReturnValue : Int
  Args : List Argument
  ArgsNum : Int
  StackAddresses : List Nat
  MatchedPolicies : Option Nat
  PoliciesVersion : Nat
deriving DecidableEq

/-! ## Derivation table and engine -/

/-- Errors of the derive package.  Modelled from the spec: the constructors
`alreadyRegisteredError`, `unexpectedArgCountError` and `deriveError` are
declared outside `src/`; the spec names the kinds `AlreadyRegistered`,
`UnexpectedArgumentCount` and generic wrapped rule errors. -/
inductive DeriveError where
  | plain (msg : String)
  | alreadyRegistered (deriveFrom : Int) (deriveTo : Int)
  | unexpectedArgCount (name : String) (expected : Nat) (got : Nat)
  | wrapped (target : Int) (err : DeriveError)
deriving DecidableEq

/-- `alreadyRegisteredError`. -/
def alreadyRegisteredError (deriveFrom deriveTo : Int) : DeriveError :=
  .alreadyRegistered deriveFrom deriveTo

/-- `unexpectedArgCountError`. -/
def unexpectedArgCountError (name : String) (expected got : Nat) : DeriveError :=
  .unexpectedArgCount name expected got

/-- `deriveError`: wrap a rule error with the offending target identifier. -/
def deriveError (id : Int) (err : DeriveError) : DeriveError := .wrapped id err

/-- `derive.DeriveFunction`: a rule function, producing derived events and
per-attempt errors from a base event. -/
def DeriveFunction : Type := Event → List Event × List DeriveError

/-- One entry of the derivation table: rule function plus enabled predicate
(re-evaluated per call, hence a thunk). -/
structure TableEntry where
  DeriveFunction : DeriveFunction
  Enabled : Unit → Bool

/-- Association-list lookup (the Go two-level map read `m[k]`). -/
def lookupA {α : Type} : List (Int × α) → Int → Option α
  | [], _ => none
  | (k, v) :: rest, key => if k = key then some v else lookupA rest key

/-- Association-list update (the Go map write `m[k] = v`). -/
def setA {α : Type} : List (Int × α) → Int → α → List (Int × α)
  | [], key, v => [(key, v)]
  | (k, w) :: rest, key, v =>
    if k = key then (key, v) :: rest else (k, w) :: setA rest key v

/-- `derive.Table`: source identifier to target identifier to entry.  The Go
map is modelled as a two-level association list; no claim depends on
iteration order (the spec promises none). -/
def Table : Type := List (Int × List (Int × TableEntry))

/-- `Table.Register`: reject an existing (source, target) pair with an
`AlreadyRegistered` error, leaving the table untouched; otherwise insert. -/
def Register (t : Table) (deriveFrom deriveTo : Int) (deriveCondition : Unit → Bool)
    (deriveLogic : DeriveFunction) : Option DeriveError × Table :=
  let inner := (lookupA t deriveFrom).getD []
  match lookupA inner deriveTo with
  | some _ => (some (alreadyRegisteredError deriveFrom deriveTo), t)
  | none =>
    (none, setA t deriveFrom
      (setA inner deriveTo { DeriveFunction := deriveLogic, Enabled := deriveCondition }))

/-- `Table.DeriveEvent`: run every enabled rule registered under the event
identifier, wrap each rule error with its target identifier, and collect all
derived events and all errors. -/
def DeriveEvent (t : Table) (event : Event) : List Event × List DeriveError :=
  let deriveFns := (lookupA t event.EventID).getD []
  deriveFns.foldl
    (fun acc entry =>
      if entry.2.Enabled () then
        let res := entry.2.DeriveFunction event
        (acc.1 ++ res.1, acc.2 ++ res.2.map (deriveError entry.1))
      else acc)
    ([], [])

/-- `derive.deriveBase`: the skeleton of a derived event definition. -/
structure deriveBase where
  Name : String
  ID : Int
  Fields : List DataField

/-- Modelled from the spec: the external event-definition registry
(`events.Core.GetDefinitionByID`), read-only reference data mapping an
identifier to its display name and declared field list. -/
structure EventDefinition where
  Name : String
  Fields : List DataField

/-- `derive.makeDeriveBase`, with the package-level definition lookup passed
explicitly. -/
def makeDeriveBase (getEventDefinition : Int → EventDefinition) (eventID : Int) : deriveBase :=
  { Name := (getEventDefinition eventID).Name
    ID := eventID
    Fields := (getEventDefinition eventID).Fields }

/-- `derive.buildDerivedEvent`: check the argument count against the schema,
then shallow-copy the base event, overwrite identifier, name, arguments,
return value and stack trace, and deep-copy the matched-policies slice when
the base holds one (a fresh allocation with equal contents). -/
def buildDerivedEvent (baseEvent : Event) (skeleton : deriveBase) (argsValues : List GoVal)
    (h : PolicyHeap) : Except DeriveError Event × PolicyHeap :=
  if skeleton.Fields.length ≠ argsValues.length then
    (.error (unexpectedArgCountError skeleton.Name skeleton.Fields.length argsValues.length), h)
  else
    let de : Event :=
      { baseEvent with
        PoliciesVersion := baseEvent.PoliciesVersion
        EventID := skeleton.ID
        EventName := skeleton.Name
        ReturnValue := 0
        StackAddresses := List.replicate 1 0
        Args := (skeleton.Fields.zip argsValues).map
          (fun p => { ArgMeta := p.1.ArgMeta, Value := p.2 })
        ArgsNum := (skeleton.Fields.length : Int) }
    match baseEvent.MatchedPolicies with
    | none => (.ok de, h)
    | some r =>
      let fresh := h.alloc (h.read r)
      (.ok { de with MatchedPolicies := some fresh.1 }, fresh.2)

/-- `derive.deriveMultipleEvents`: run the multi-argument rule, and build one
derived event per produced tuple, collecting build failures next to the rule
errors without aborting the remaining tuples. -/
def deriveMultipleEvents (getEventDefinition : Int → EventDefinition) (id : Int)
    (multiDeriveArgsFunc : Event → Option (List (List GoVal)) × List DeriveError)
    (event : Event) (h : PolicyHeap) : (List Event × List DeriveError) × PolicyHeap :=
  let skeleton := makeDeriveBase getEventDefinition id
  let res := multiDeriveArgsFunc event
  match res.1 with
  | none => (([], res.2), h)
  | some multiArgs =>
    multiArgs.foldl
      (fun acc derivedArgs =>
        match buildDerivedEvent event skeleton derivedArgs acc.2 with
        | (.error e, h2) => ((acc.1.1, acc.1.2 ++ [e]), h2)
        | (.ok de, h2) => ((acc.1.1 ++ [de], acc.1.2), h2))
      (([], res.2), h)

/-! ## Argument assembly -/

/-- Modelled from the spec: `readArgFromBuff` is declared outside `src/`.  It
reads one tagged argument from the decoder stream and returns the destination
schema index and the decoded `Argument`, or an error for that single
argument.  The sequence of its results over the `argnum` loop iterations of
`DecodeArguments` is abstracted as a pre-extracted list of outcomes. -/
def ArgRead : Type := Except String (Nat × Argument)

/-- The Go zero value of `trace.Argument`, as left by
`make([]trace.Argument, n)`: empty metadata and a nil value. -/
def zeroArgument : Argument := { ArgMeta := { Name := "", Typ := "" }, Value := GoVal.nil }

/-- The read-and-place loop of `EbpfDecoder.DecodeArguments`: an errored read
is logged and skipped; a successful read is placed at its schema index
(overwriting, after a logged warning, any value already there).  `none` marks
the Go runtime fault of an out-of-range index write. -/
def decodeArgsLoop (args : List Argument) : List ArgRead → Option (List Argument)
  | [] => some args
  | .error _ :: rest => decodeArgsLoop args rest
  | .ok (idx, arg) :: rest =>
    if idx < args.length then decodeArgsLoop (args.set idx arg) rest
    else none

/-- The fill step of `EbpfDecoder.DecodeArguments`: every slot still holding a
nil value receives the schema field's declared metadata and zero value. -/
def fillMissing (args : List Argument) (evtFields : List DataField) : List Argument :=
  args.zipWith
    (fun a f => if a.Value = GoVal.nil then { ArgMeta := f.ArgMeta, Value := f.Zero } else a)
    evtFields

/-- `EbpfDecoder.DecodeArguments`: place each of the `argnum` read results,
then fill every still-empty slot from the schema. -/
def DecodeArguments (args : List Argument) (reads : List ArgRead)
    (evtFields : List DataField) : Option (List Argument) :=
  (decodeArgsLoop args reads).map (fun a => fillMissing a evtFields)

/-! ## Sample data for concrete witnesses -/

/-- A concrete base event. -/
def sampleEvent : Event :=
  { EventID := 1, EventName := "base", Timestamp := 10, ProcessID := 2, ThreadID := 3
    ContainerID := "c0", ReturnValue := 7, Args := [], ArgsNum := 0
    StackAddresses := [5, 6], MatchedPolicies := some 0, PoliciesVersion := 4 }

/-- A concrete derived event, as a rule would produce it. -/
def sampleDerived : Event :=
  { sampleEvent with EventID := 9, EventName := "derived" }

/-- A concrete policy heap with one allocated slice. -/
def sampleHeap : PolicyHeap :=
  { next := 1, cells := fun _ => ["policyA", "policyB"] }

/-- Concrete schema fields and a decoded argument. -/
def sampleFieldA : DataField :=
  { ArgMeta := { Name := "a", Typ := "int" }, Zero := GoVal.num 0 }

def sampleFieldB : DataField :=
  { ArgMeta := { Name := "b", Typ := "int" }, Zero := GoVal.num 0 }

def sampleArgB : Argument :=
  { ArgMeta := { Name := "b", Typ := "int" }, Value := GoVal.num 3 }

/-- A concrete well-formed context header. -/
def sampleContext : EventContext :=
  { Ts := 1, StartTime := 2, CgroupID := 3, Pid := 4, Tid := 5, Ppid := 6, HostPid := 7
    HostTid := 8, HostPpid := 9, Uid := 10, MntID := 11, PidID := 12
    Comm := List.replicate 16 65, UtsName := List.replicate 16 66, Flags := 13
    LeaderStartTime := 14, ParentStartTime := 15, EventID := -2, Syscall := 16
    Retval := -3, StackID := 17, ProcessorId := 18, PoliciesVersion := 19
    MatchedPolicies := 20 }

/-- A concrete one-field event-definition lookup. -/
def sampleDefs : Int → EventDefinition := fun _ =>
  { Name := "d"
    Fields := [{ ArgMeta := { Name := "a", Typ := "int" }, Zero := GoVal.num 0 }] }

/-! ## Helper lemmas -/

theorem remaining_length (d : Decoder) : (remaining d).length = d.buffer.length - d.cursor.toNat := by
  simp [remaining]

theorem lookupA_setA_self {α : Type} (l : List (Int × α)) (k : Int) (v : α) :
    lookupA (setA l k v) k = some v := by
  induction l with
  | nil => simp [setA, lookupA]
  | cons p rest ih =>
    obtain ⟨a, b⟩ := p
    by_cases h : a = k
    · simp [setA, lookupA, h]
    · simp [setA, lookupA, h, ih]

/-! ## Claims about the buffer decoder cursor -/

/-- C8: `MoveCursor(n)` advances the cursor by `n` and returns the new
position whenever `cursor + n` does not exceed the buffer length; when the
move would exceed the buffer length, the cursor stays unchanged, the old
position is returned, and no error is signalled. -/
theorem moveCursor_spec (d : Decoder) (n : Int) :
    (d.cursor + n ≤ (d.buffer.length : Int) →
      MoveCursor d n = (d.cursor + n, { d with cursor := d.cursor + n })) ∧
    ((d.buffer.length : Int) < d.cursor + n →
      MoveCursor d n = (d.cursor, d)) := by
  constructor
  · intro h
    simp [MoveCursor, not_lt.mpr h]
  · intro h
    simp [MoveCursor, h]

theorem moveCursor_spec_witness :
    MoveCursor { buffer := [7, 7, 7], cursor := 0 } 2 =
      (2, { buffer := [7, 7, 7], cursor := 2 }) ∧
    MoveCursor { buffer := [7, 7, 7], cursor := 0 } 5 =
      (0, { buffer := [7, 7, 7], cursor := 0 }) :=
  ⟨(moveCursor_spec { buffer := [7, 7, 7], cursor := 0 } 2).1 (by decide),
   (moveCursor_spec { buffer := [7, 7, 7], cursor := 0 } 5).2 (by decide)⟩

/-- C9: `MoveCursor` only guards the upper bound: for every negative `n` with
`cursor + n ≤ len`, the cursor moves backward to `cursor + n`, including to a
negative position when `n < -cursor`; there the next decode primitive hits the
Go slice-bounds runtime fault — the cursor is not in fact forward-only. -/
theorem moveCursor_negative (d : Decoder) (n : Int) (hneg : n < 0)
    (hle : d.cursor + n ≤ (d.buffer.length : Int)) :
    (MoveCursor d n).1 = d.cursor + n ∧
    (MoveCursor d n).2.cursor = d.cursor + n ∧
    (n < -d.cursor → DecodeUint8 (MoveCursor d n).2 = .fault) := by
  have hmove : MoveCursor d n = (d.cursor + n, { d with cursor := d.cursor + n }) := by
    simp [MoveCursor, not_lt.mpr hle]
  refine ⟨by rw [hmove], by rw [hmove], ?_⟩
  intro hn
  have hlt : ¬ (0 ≤ d.cursor + n) := by omega
  rw [hmove]
  simp [DecodeUint8, inBounds, hlt]

theorem moveCursor_negative_witness :
    (MoveCursor { buffer := [1, 2], cursor := 1 } (-2)).1 = 1 + (-2) ∧
    (MoveCursor { buffer := [1, 2], cursor := 1 } (-2)).2.cursor = 1 + (-2) ∧
    DecodeUint8 (MoveCursor { buffer := [1, 2], cursor := 1 } (-2)).2 = .fault :=
  ⟨(moveCursor_negative { buffer := [1, 2], cursor := 1 } (-2) (by decide) (by decide)).1,
   (moveCursor_negative { buffer := [1, 2], cursor := 1 } (-2) (by decide) (by decide)).2.1,
   (moveCursor_negative { buffer := [1, 2], cursor := 1 } (-2) (by decide) (by decide)).2.2
     (by decide)⟩

/-! ## Claims about the derivation table -/

/-- C7: `Register` fails with an `AlreadyRegistered` error when the
(source, target) pair already exists and then leaves the table unchanged (the
first registration is not overwritten); when the pair is absent it inserts the
entry and returns no error. -/
theorem register_spec (t : Table) (deriveFrom deriveTo : Int)
    (cond cond2 : Unit → Bool) (logic logic2 : DeriveFunction) :
    (∀ e0, lookupA ((lookupA t deriveFrom).getD []) deriveTo = some e0 →
      Register t deriveFrom deriveTo cond2 logic2 =
        (some (alreadyRegisteredError deriveFrom deriveTo), t)) ∧
    (lookupA ((lookupA t deriveFrom).getD []) deriveTo = none →
      ∃ t2, Register t deriveFrom deriveTo cond logic = (none, t2) ∧
        lookupA ((lookupA t2 deriveFrom).getD []) deriveTo =
          some { DeriveFunction := logic, Enabled := cond } ∧
        Register t2 deriveFrom deriveTo cond2 logic2 =
          (some (alreadyRegisteredError deriveFrom deriveTo), t2)) := by
  constructor
  · intro e0 h
    simp [Register, h]
  · intro h
    refine ⟨setA t deriveFrom
      (setA ((lookupA t deriveFrom).getD []) deriveTo
        { DeriveFunction := logic, Enabled := cond }), ?_, ?_, ?_⟩
    · simp [Register, h]
    · simp [lookupA_setA_self]
    · simp [Register, lookupA_setA_self]

theorem register_spec_witness :
    ∃ t2, Register [] 1 2 (fun _ => true) (fun _ => ([], [])) = (none, t2) ∧
      lookupA ((lookupA t2 1).getD []) 2 =
        some { DeriveFunction := fun _ => ([], []), Enabled := fun _ => true } ∧
      Register t2 1 2 (fun _ => false) (fun _ => ([sampleDerived], [])) =
        (some (alreadyRegisteredError 1 2), t2) :=
  (register_spec [] 1 2 (fun _ => true) (fun _ => false)
    (fun _ => ([], [])) (fun _ => ([sampleDerived], []))).2 rfl

/-- C1: with rules A and B registered (and enabled) under the same source
identifier, A returning an error and no events and B returning one derived
event and no error, `DeriveEvent` returns exactly B's event and exactly A's
error wrapped with A's target identifier — A's failure does not prevent B
from running. -/
theorem deriveEvent_failure_isolation
    (srcID tgtA tgtB : Int) (condA condB : Unit → Bool)
    (fA fB : DeriveFunction) (event evB : Event) (errA : DeriveError)
    (hne : tgtA ≠ tgtB)
    (hCondA : condA () = true) (hCondB : condB () = true)
    (hfA : fA event = ([], [errA])) (hfB : fB event = ([evB], []))
    (hid : event.EventID = srcID) :
    DeriveEvent (Register (Register [] srcID tgtA condA fA).2 srcID tgtB condB fB).2 event =
      ([evB], [deriveError tgtA errA]) := by
  simp [Register, lookupA, setA, DeriveEvent, hid, hne, hCondA, hCondB, hfA, hfB]

theorem deriveEvent_failure_isolation_witness :
    DeriveEvent
      (Register (Register [] 1 2 (fun _ => true) (fun _ => ([], [DeriveError.plain "boom"]))).2
        1 3 (fun _ => true) (fun _ => ([sampleDerived], []))).2 sampleEvent =
      ([sampleDerived], [deriveError 2 (DeriveError.plain "boom")]) :=
  deriveEvent_failure_isolation 1 2 3 (fun _ => true) (fun _ => true)
    (fun _ => ([], [DeriveError.plain "boom"])) (fun _ => ([sampleDerived], []))
    sampleEvent sampleDerived (DeriveError.plain "boom")
    (by decide) rfl rfl rfl rfl rfl

/-! ## Claim C3: fixed-width primitives -/

theorem leNat_take_one (l : List Nat) : leNat (l.take 1) = l.headD 0 := by
  cases l <;> simp [leNat]

/-- C3: every fixed-width decode primitive, on a decoder with fewer remaining
bytes than its width, returns a `BufferTooShort` error carrying the expected
width, the actual remaining byte count and the attempted type name, leaves
the cursor (and decoder) unchanged, writes no value and performs no
out-of-bounds read; with at least `width` remaining bytes it returns the
little-endian (big-endian for the BigEndian variants) interpretation of the
next `width` bytes and advances the cursor by exactly `width`. -/
theorem fixed_width_primitives_spec :
    (∀ d : Decoder, 0 ≤ d.cursor → d.cursor ≤ (d.buffer.length : Int) →
        (d.buffer.length : Int) - d.cursor < 1 →
      DecodeUint8 d =
        .error (.bufferTooShort 1 (d.buffer.length - d.cursor.toNat) "uint8") d) ∧
    (∀ d : Decoder, 0 ≤ d.cursor → d.cursor + 1 ≤ (d.buffer.length : Int) →
      DecodeUint8 d = .ok (leNat ((remaining d).take 1)) { d with cursor := d.cursor + 1 }) ∧
    (∀ d : Decoder, 0 ≤ d.cursor → d.cursor ≤ (d.buffer.length : Int) →
        (d.buffer.length : Int) - d.cursor < 1 →
      DecodeInt8 d =
        .error (.bufferTooShort 1 (d.buffer.length - d.cursor.toNat) "int8") d) ∧
    (∀ d : Decoder, 0 ≤ d.cursor → d.cursor + 1 ≤ (d.buffer.length : Int) →
      DecodeInt8 d = .ok (toSigned 8 (leNat ((remaining d).take 1))) { d with cursor := d.cursor + 1 }) ∧
    (∀ d : Decoder, 0 ≤ d.cursor → d.cursor ≤ (d.buffer.length : Int) →
        (d.buffer.length : Int) - d.cursor < 2 →
      DecodeUint16 d =
        .error (.bufferTooShort 2 (d.buffer.length - d.cursor.toNat) "uint16") d) ∧
    (∀ d : Decoder, 0 ≤ d.cursor → d.cursor + 2 ≤ (d.buffer.length : Int) →
      DecodeUint16 d = .ok (leNat ((remaining d).take 2)) { d with cursor := d.cursor + 2 }) ∧
    (∀ d : Decoder, 0 ≤ d.cursor → d.cursor ≤ (d.buffer.length : Int) →
        (d.buffer.length : Int) - d.cursor < 2 →
      DecodeUint16BigEndian d =
        .error (.bufferTooShort 2 (d.buffer.length - d.cursor.toNat) "uint16") d) ∧
    (∀ d : Decoder, 0 ≤ d.cursor → d.cursor + 2 ≤ (d.buffer.length : Int) →
      DecodeUint16BigEndian d = .ok (beNat ((remaining d).take 2)) { d with cursor := d.cursor + 2 }) ∧
    (∀ d : Decoder, 0 ≤ d.cursor → d.cursor ≤ (d.buffer.length : Int) →
        (d.buffer.length : Int) - d.cursor < 2 →
      DecodeInt16 d =
        .error (.bufferTooShort 2 (d.buffer.length - d.cursor.toNat) "int16") d) ∧
    (∀ d : Decoder, 0 ≤ d.cursor → d.cursor + 2 ≤ (d.buffer.length : Int) →
      DecodeInt16 d = .ok (toSigned 16 (leNat ((remaining d).take 2))) { d with cursor := d.cursor + 2 }) ∧
    (∀ d : Decoder, 0 ≤ d.cursor → d.cursor ≤ (d.buffer.length : Int) →
        (d.buffer.length : Int) - d.cursor < 4 →
      DecodeUint32 d =
        .error (.bufferTooShort 4 (d.buffer.length - d.cursor.toNat) "uint32") d) ∧
    (∀ d : Decoder, 0 ≤ d.cursor → d.cursor + 4 ≤ (d.buffer.length : Int) →
      DecodeUint32 d = .ok (leNat ((remaining d).take 4)) { d with cursor := d.cursor + 4 }) ∧
    (∀ d : Decoder, 0 ≤ d.cursor → d.cursor ≤ (d.buffer.length : Int) →
        (d.buffer.length : Int) - d.cursor < 4 →
      DecodeUint32BigEndian d =
        .error (.bufferTooShort 4 (d.buffer.length - d.cursor.toNat) "uint32 (big endian)") d) ∧
    (∀ d : Decoder, 0 ≤ d.cursor → d.cursor + 4 ≤ (d.buffer.length : Int) →
      DecodeUint32BigEndian d = .ok (beNat ((remaining d).take 4)) { d with cursor := d.cursor + 4 }) ∧
    (∀ d : Decoder, 0 ≤ d.cursor → d.cursor ≤ (d.buffer.length : Int) →
        (d.buffer.length : Int) - d.cursor < 4 →
      DecodeInt32 d =
        .error (.bufferTooShort 4 (d.buffer.length - d.cursor.toNat) "int32") d) ∧
    (∀ d : Decoder, 0 ≤ d.cursor → d.cursor + 4 ≤ (d.buffer.length : Int) →
      DecodeInt32 d = .ok (toSigned 32 (leNat ((remaining d).take 4))) { d with cursor := d.cursor + 4 }) ∧
    (∀ d : Decoder, 0 ≤ d.cursor → d.cursor ≤ (d.buffer.length : Int) →
        (d.buffer.length : Int) - d.cursor < 8 →
      DecodeUint64 d =
        .error (.bufferTooShort 8 (d.buffer.length - d.cursor.toNat) "uint64") d) ∧
    (∀ d : Decoder, 0 ≤ d.cursor → d.cursor + 8 ≤ (d.buffer.length : Int) →
      DecodeUint64 d = .ok (leNat ((remaining d).take 8)) { d with cursor := d.cursor + 8 }) ∧
    (∀ d : Decoder, 0 ≤ d.cursor → d.cursor ≤ (d.buffer.length : Int) →
        (d.buffer.length : Int) - d.cursor < 8 →
      DecodeInt64 d =
        .error (.bufferTooShort 8 (d.buffer.length - d.cursor.toNat) "int64") d) ∧
    (∀ d : Decoder, 0 ≤ d.cursor → d.cursor + 8 ≤ (d.buffer.length : Int) →
      DecodeInt64 d = .ok (toSigned 64 (leNat ((remaining d).take 8))) { d with cursor := d.cursor + 8 }) ∧
    (∀ d : Decoder, 0 ≤ d.cursor → d.cursor ≤ (d.buffer.length : Int) →
        (d.buffer.length : Int) - d.cursor < 1 →
      DecodeBool d =
        .error (.bufferTooShort 1 (d.buffer.length - d.cursor.toNat) "bool") d) ∧
    (∀ d : Decoder, 0 ≤ d.cursor → d.cursor + 1 ≤ (d.buffer.length : Int) →
      DecodeBool d = .ok ((remaining d).headD 0 != 0) { d with cursor := d.cursor + 1 }) := by
  refine ⟨?_, ?_, ?_, ?_, ?_, ?_, ?_, ?_, ?_, ?_, ?_, ?_, ?_, ?_, ?_, ?_, ?_, ?_, ?_, ?_, ?_, ?_⟩
  · intro d h0 h1 h2
    unfold DecodeUint8
    rw [if_pos (show inBounds d from ⟨h0, h1⟩),
      if_pos (show (remaining d).length < 1 by rw [remaining_length]; omega),
      remaining_length]
  · intro d h0 h2
    unfold DecodeUint8
    rw [if_pos (show inBounds d from ⟨h0, by omega⟩),
      if_neg (show ¬ (remaining d).length < 1 by rw [remaining_length]; omega)]
    rw [leNat_take_one]
  · intro d h0 h1 h2
    unfold DecodeInt8
    rw [if_pos (show inBounds d from ⟨h0, h1⟩),
      if_pos (show (remaining d).length < 1 by rw [remaining_length]; omega),
      remaining_length]
  · intro d h0 h2
    unfold DecodeInt8
    rw [if_pos (show inBounds d from ⟨h0, by omega⟩),
      if_neg (show ¬ (remaining d).length < 1 by rw [remaining_length]; omega)]
    rw [leNat_take_one]
  · intro d h0 h1 h2
    unfold DecodeUint16
    rw [if_pos (show inBounds d from ⟨h0, h1⟩),
      if_pos (show (remaining d).length < 2 by rw [remaining_length]; omega),
      remaining_length]
  · intro d h0 h2
    unfold DecodeUint16
    rw [if_pos (show inBounds d from ⟨h0, by omega⟩),
      if_neg (show ¬ (remaining d).length < 2 by rw [remaining_length]; omega)]
  · intro d h0 h1 h2
    unfold DecodeUint16BigEndian
    rw [if_pos (show inBounds d from ⟨h0, h1⟩),
      if_pos (show (remaining d).length < 2 by rw [remaining_length]; omega),
      remaining_length]
  · intro d h0 h2
    unfold DecodeUint16BigEndian
    rw [if_pos (show inBounds d from ⟨h0, by omega⟩),
      if_neg (show ¬ (remaining d).length < 2 by rw [remaining_length]; omega)]
  · intro d h0 h1 h2
    unfold DecodeInt16
    rw [if_pos (show inBounds d from ⟨h0, h1⟩),
      if_pos (show (remaining d).length < 2 by rw [remaining_length]; omega),
      remaining_length]
  · intro d h0 h2
    unfold DecodeInt16
    rw [if_pos (show inBounds d from ⟨h0, by omega⟩),
      if_neg (show ¬ (remaining d).length < 2 by rw [remaining_length]; omega)]
  · intro d h0 h1 h2
    unfold DecodeUint32
    rw [if_pos (show inBounds d from ⟨h0, h1⟩),
      if_pos (show (remaining d).length < 4 by rw [remaining_length]; omega),
      remaining_length]
  · intro d h0 h2
    unfold DecodeUint32
    rw [if_pos (show inBounds d from ⟨h0, by omega⟩),
      if_neg (show ¬ (remaining d).length < 4 by rw [remaining_length]; omega)]
  · intro d h0 h1 h2
    unfold DecodeUint32BigEndian
    rw [if_pos (show inBounds d from ⟨h0, h1⟩),
      if_pos (show (remaining d).length < 4 by rw [remaining_length]; omega),
      remaining_length]
  · intro d h0 h2
    unfold DecodeUint32BigEndian
    rw [if_pos (show inBounds d from ⟨h0, by omega⟩),
      if_neg (show ¬ (remaining d).length < 4 by rw [remaining_length]; omega)]
  · intro d h0 h1 h2
    unfold DecodeInt32
    rw [if_pos (show inBounds d from ⟨h0, h1⟩),
      if_pos (show (remaining d).length < 4 by rw [remaining_length]; omega),
      remaining_length]
  · intro d h0 h2
    unfold DecodeInt32
    rw [if_pos (show inBounds d from ⟨h0, by omega⟩),
      if_neg (show ¬ (remaining d).length < 4 by rw [remaining_length]; omega)]
  · intro d h0 h1 h2
    unfold DecodeUint64
    rw [if_pos (show inBounds d from ⟨h0, h1⟩),
      if_pos (show (remaining d).length < 8 by rw [remaining_length]; omega),
      remaining_length]
  · intro d h0 h2
    unfold DecodeUint64
    rw [if_pos (show inBounds d from ⟨h0, by omega⟩),
      if_neg (show ¬ (remaining d).length < 8 by rw [remaining_length]; omega)]
  · intro d h0 h1 h2
    unfold DecodeInt64
    rw [if_pos (show inBounds d from ⟨h0, h1⟩),
      if_pos (show (remaining d).length < 8 by rw [remaining_length]; omega),
      remaining_length]
  · intro d h0 h2
    unfold DecodeInt64
    rw [if_pos (show inBounds d from ⟨h0, by omega⟩),
      if_neg (show ¬ (remaining d).length < 8 by rw [remaining_length]; omega)]
  · intro d h0 h1 h2
    unfold DecodeBool
    rw [if_pos (show inBounds d from ⟨h0, h1⟩),
      if_pos (show (remaining d).length < 1 by rw [remaining_length]; omega),
      remaining_length]
  · intro d h0 h2
    unfold DecodeBool
    rw [if_pos (show inBounds d from ⟨h0, by omega⟩),
      if_neg (show ¬ (remaining d).length < 1 by rw [remaining_length]; omega)]

theorem fixed_width_primitives_spec_witness :
    (DecodeUint8 { buffer := [], cursor := 0 } =
      .error (.bufferTooShort 1 0 "uint8") { buffer := [], cursor := 0 }) ∧
    (DecodeUint8 { buffer := [1, 2, 3, 4, 5, 6, 7, 8], cursor := 0 } =
      .ok 1 { buffer := [1, 2, 3, 4, 5, 6, 7, 8], cursor := 1 }) ∧
    (DecodeInt8 { buffer := [], cursor := 0 } =
      .error (.bufferTooShort 1 0 "int8") { buffer := [], cursor := 0 }) ∧
    (DecodeInt8 { buffer := [1, 2, 3, 4, 5, 6, 7, 8], cursor := 0 } =
      .ok 1 { buffer := [1, 2, 3, 4, 5, 6, 7, 8], cursor := 1 }) ∧
    (DecodeUint16 { buffer := [], cursor := 0 } =
      .error (.bufferTooShort 2 0 "uint16") { buffer := [], cursor := 0 }) ∧
    (DecodeUint16 { buffer := [1, 2, 3, 4, 5, 6, 7, 8], cursor := 0 } =
      .ok 513 { buffer := [1, 2, 3, 4, 5, 6, 7, 8], cursor := 2 }) ∧
    (DecodeUint16BigEndian { buffer := [], cursor := 0 } =
      .error (.bufferTooShort 2 0 "uint16") { buffer := [], cursor := 0 }) ∧
    (DecodeUint16BigEndian { buffer := [1, 2, 3, 4, 5, 6, 7, 8], cursor := 0 } =
      .ok 258 { buffer := [1, 2, 3, 4, 5, 6, 7, 8], cursor := 2 }) ∧
    (DecodeInt16 { buffer := [], cursor := 0 } =
      .error (.bufferTooShort 2 0 "int16") { buffer := [], cursor := 0 }) ∧
    (DecodeInt16 { buffer := [1, 2, 3, 4, 5, 6, 7, 8], cursor := 0 } =
      .ok 513 { buffer := [1, 2, 3, 4, 5, 6, 7, 8], cursor := 2 }) ∧
    (DecodeUint32 { buffer := [], cursor := 0 } =
      .error (.bufferTooShort 4 0 "uint32") { buffer := [], cursor := 0 }) ∧
    (DecodeUint32 { buffer := [1, 2, 3, 4, 5, 6, 7, 8], cursor := 0 } =
      .ok 67305985 { buffer := [1, 2, 3, 4, 5, 6, 7, 8], cursor := 4 }) ∧
    (DecodeUint32BigEndian { buffer := [], cursor := 0 } =
      .error (.bufferTooShort 4 0 "uint32 (big endian)") { buffer := [], cursor := 0 }) ∧
    (DecodeUint32BigEndian { buffer := [1, 2, 3, 4, 5, 6, 7, 8], cursor := 0 } =
      .ok 16909060 { buffer := [1, 2, 3, 4, 5, 6, 7, 8], cursor := 4 }) ∧
    (DecodeInt32 { buffer := [], cursor := 0 } =
      .error (.bufferTooShort 4 0 "int32") { buffer := [], cursor := 0 }) ∧
    (DecodeInt32 { buffer := [1, 2, 3, 4, 5, 6, 7, 8], cursor := 0 } =
      .ok 67305985 { buffer := [1, 2, 3, 4, 5, 6, 7, 8], cursor := 4 }) ∧
    (DecodeUint64 { buffer := [], cursor := 0 } =
      .error (.bufferTooShort 8 0 "uint64") { buffer := [], cursor := 0 }) ∧
    (DecodeUint64 { buffer := [1, 2, 3, 4, 5, 6, 7, 8], cursor := 0 } =
      .ok 578437695752307201 { buffer := [1, 2, 3, 4, 5, 6, 7, 8], cursor := 8 }) ∧
    (DecodeInt64 { buffer := [], cursor := 0 } =
      .error (.bufferTooShort 8 0 "int64") { buffer := [], cursor := 0 }) ∧
    (DecodeInt64 { buffer := [1, 2, 3, 4, 5, 6, 7, 8], cursor := 0 } =
      .ok 578437695752307201 { buffer := [1, 2, 3, 4, 5, 6, 7, 8], cursor := 8 }) ∧
    (DecodeBool { buffer := [], cursor := 0 } =
      .error (.bufferTooShort 1 0 "bool") { buffer := [], cursor := 0 }) ∧
    (DecodeBool { buffer := [1, 2, 3, 4, 5, 6, 7, 8], cursor := 0 } =
      .ok true { buffer := [1, 2, 3, 4, 5, 6, 7, 8], cursor := 1 }) :=
  ⟨
    fixed_width_primitives_spec.1 { buffer := [], cursor := 0 } (by decide) (by decide) (by decide),
    fixed_width_primitives_spec.2.1 { buffer := [1, 2, 3, 4, 5, 6, 7, 8], cursor := 0 } (by decide) (by decide),
    fixed_width_primitives_spec.2.2.1 { buffer := [], cursor := 0 } (by decide) (by decide) (by decide),
    fixed_width_primitives_spec.2.2.2.1 { buffer := [1, 2, 3, 4, 5, 6, 7, 8], cursor := 0 } (by decide) (by decide),
    fixed_width_primitives_spec.2.2.2.2.1 { buffer := [], cursor := 0 } (by decide) (by decide) (by decide),
    fixed_width_primitives_spec.2.2.2.2.2.1 { buffer := [1, 2, 3, 4, 5, 6, 7, 8], cursor := 0 } (by decide) (by decide),
    fixed_width_primitives_spec.2.2.2.2.2.2.1 { buffer := [], cursor := 0 } (by decide) (by decide) (by decide),
    fixed_width_primitives_spec.2.2.2.2.2.2.2.1 { buffer := [1, 2, 3, 4, 5, 6, 7, 8], cursor := 0 } (by decide) (by decide),
    fixed_width_primitives_spec.2.2.2.2.2.2.2.2.1 { buffer := [], cursor := 0 } (by decide) (by decide) (by decide),
    fixed_width_primitives_spec.2.2.2.2.2.2.2.2.2.1 { buffer := [1, 2, 3, 4, 5, 6, 7, 8], cursor := 0 } (by decide) (by decide),
    fixed_width_primitives_spec.2.2.2.2.2.2.2.2.2.2.1 { buffer := [], cursor := 0 } (by decide) (by decide) (by decide),
    fixed_width_primitives_spec.2.2.2.2.2.2.2.2.2.2.2.1 { buffer := [1, 2, 3, 4, 5, 6, 7, 8], cursor := 0 } (by decide) (by decide),
    fixed_width_primitives_spec.2.2.2.2.2.2.2.2.2.2.2.2.1 { buffer := [], cursor := 0 } (by decide) (by decide) (by decide),
    fixed_width_primitives_spec.2.2.2.2.2.2.2.2.2.2.2.2.2.1 { buffer := [1, 2, 3, 4, 5, 6, 7, 8], cursor := 0 } (by decide) (by decide),
    fixed_width_primitives_spec.2.2.2.2.2.2.2.2.2.2.2.2.2.2.1 { buffer := [], cursor := 0 } (by decide) (by decide) (by decide),
    fixed_width_primitives_spec.2.2.2.2.2.2.2.2.2.2.2.2.2.2.2.1 { buffer := [1, 2, 3, 4, 5, 6, 7, 8], cursor := 0 } (by decide) (by decide),
    fixed_width_primitives_spec.2.2.2.2.2.2.2.2.2.2.2.2.2.2.2.2.1 { buffer := [], cursor := 0 } (by decide) (by decide) (by decide),
    fixed_width_primitives_spec.2.2.2.2.2.2.2.2.2.2.2.2.2.2.2.2.2.1 { buffer := [1, 2, 3, 4, 5, 6, 7, 8], cursor := 0 } (by decide) (by decide),
    fixed_width_primitives_spec.2.2.2.2.2.2.2.2.2.2.2.2.2.2.2.2.2.2.1 { buffer := [], cursor := 0 } (by decide) (by decide) (by decide),
    fixed_width_primitives_spec.2.2.2.2.2.2.2.2.2.2.2.2.2.2.2.2.2.2.2.1 { buffer := [1, 2, 3, 4, 5, 6, 7, 8], cursor := 0 } (by decide) (by decide),
    fixed_width_primitives_spec.2.2.2.2.2.2.2.2.2.2.2.2.2.2.2.2.2.2.2.2.1 { buffer := [], cursor := 0 } (by decide) (by decide) (by decide),
    fixed_width_primitives_spec.2.2.2.2.2.2.2.2.2.2.2.2.2.2.2.2.2.2.2.2.2 { buffer := [1, 2, 3, 4, 5, 6, 7, 8], cursor := 0 } (by decide) (by decide)⟩

/-! ## Claim C10: the uint64-array decoder is not atomic on failure -/

theorem decodeUint16_ok_lem (d : Decoder) (h0 : 0 ≤ d.cursor)
    (h2 : d.cursor + 2 ≤ (d.buffer.length : Int)) :
    DecodeUint16 d = .ok (leNat ((remaining d).take 2)) { d with cursor := d.cursor + 2 } := by
  unfold DecodeUint16
  rw [if_pos (show inBounds d from ⟨h0, by omega⟩),
    if_neg (show ¬ (remaining d).length < 2 by rw [remaining_length]; omega)]

theorem decodeUint64_ok_lem (d : Decoder) (h0 : 0 ≤ d.cursor)
    (h2 : d.cursor + 8 ≤ (d.buffer.length : Int)) :
    DecodeUint64 d = .ok (leNat ((remaining d).take 8)) { d with cursor := d.cursor + 8 } := by
  unfold DecodeUint64
  rw [if_pos (show inBounds d from ⟨h0, by omega⟩),
    if_neg (show ¬ (remaining d).length < 8 by rw [remaining_length]; omega)]

theorem decodeUint64_short_lem (d : Decoder) (h0 : 0 ≤ d.cursor)
    (h1 : d.cursor ≤ (d.buffer.length : Int))
    (h2 : (d.buffer.length : Int) - d.cursor < 8) :
    DecodeUint64 d =
      .error (.bufferTooShort 8 (d.buffer.length - d.cursor.toNat) "uint64") d := by
  unfold DecodeUint64
  rw [if_pos (show inBounds d from ⟨h0, h1⟩),
    if_pos (show (remaining d).length < 8 by rw [remaining_length]; omega),
    remaining_length]

/-- The element loop keeps every element decoded before the failure and leaves
the cursor advanced past them: with too few remaining bytes for `count`
elements, it errors after consuming exactly `⌊remaining/8⌋` elements. -/
theorem decodeU64Loop_partial (count : Nat) :
    ∀ (i : Nat) (d : Decoder) (msg : List Nat),
      0 ≤ d.cursor → d.cursor ≤ (d.buffer.length : Int) →
      (d.buffer.length : Int) < d.cursor + 8 * count →
      ∃ e elems,
        decodeU64Loop count i d msg =
          .error e (msg ++ elems)
            { d with cursor :=
                d.cursor + 8 * ((((d.buffer.length : Int) - d.cursor).toNat / 8 : Nat) : Int) } ∧
        elems.length = ((d.buffer.length : Int) - d.cursor).toNat / 8 := by
  induction count with
  | zero =>
    intro i d msg h0 h1 h2
    simp at h2
    omega
  | succ k ih =>
    intro i d msg h0 h1 h2
    by_cases hrem : d.cursor + 8 ≤ (d.buffer.length : Int)
    · have hstep := decodeUint64_ok_lem d h0 hrem
      have h2' : ((({ d with cursor := d.cursor + 8 } : Decoder)).buffer.length : Int) <
          ({ d with cursor := d.cursor + 8 } : Decoder).cursor + 8 * (k : Nat) := by
        dsimp only
        push_cast at h2 ⊢
        omega
      obtain ⟨e, elems, heq, hlen⟩ :=
        ih (i + 1) { d with cursor := d.cursor + 8 } (msg ++ [leNat ((remaining d).take 8)])
          (by dsimp only; omega) (by dsimp only; omega) h2'
      refine ⟨e, leNat ((remaining d).take 8) :: elems, ?_, ?_⟩
      · show (match DecodeUint64 d with
          | .ok element d2 => decodeU64Loop k (i + 1) d2 (msg ++ [element])
          | .error e d2 => .error (.elementReadFailed i e) msg d2
          | .fault => .fault) = _
        rw [hstep]
        dsimp only
        rw [heq]
        rw [List.append_assoc]
        dsimp only
        congr 2
        omega
      · simp only [List.length_cons, hlen]
        omega
    · have hstep := decodeUint64_short_lem d h0 h1 (by omega)
      refine ⟨.elementReadFailed i (.bufferTooShort 8 (d.buffer.length - d.cursor.toNat) "uint64"),
        [], ?_, ?_⟩
      · show (match DecodeUint64 d with
          | .ok element d2 => decodeU64Loop k (i + 1) d2 (msg ++ [element])
          | .error e d2 => .error (.elementReadFailed i e) msg d2
          | .fault => .fault) = _
        rw [hstep]
        dsimp only
        rw [List.append_nil]
        have hq : ((d.buffer.length : Int) - d.cursor).toNat / 8 = 0 := by omega
        rw [hq]
        norm_num
      · have hq : ((d.buffer.length : Int) - d.cursor).toNat / 8 = 0 := by omega
        simp [hq]

/-- C10: `DecodeUint64Array` is not atomic on failure: when the 16-bit count
prefix promises more uint64 elements than the remaining bytes supply, the
call returns an error, yet every element decoded before the failure stays
appended to the destination and the cursor stays advanced past the prefix and
those elements — no rollback occurs. -/
theorem decodeUint64Array_partial (d : Decoder) (msg : List Nat)
    (h0 : 0 ≤ d.cursor) (h1 : d.cursor + 2 ≤ (d.buffer.length : Int))
    (hover : (d.buffer.length : Int) < d.cursor + 2 + 8 * leNat ((remaining d).take 2)) :
    ∃ e elems,
      DecodeUint64Array d msg =
        .error e (msg ++ elems)
          { d with cursor :=
              d.cursor + 2 +
                8 * ((((d.buffer.length : Int) - (d.cursor + 2)).toNat / 8 : Nat) : Int) } ∧
      elems.length = ((d.buffer.length : Int) - (d.cursor + 2)).toNat / 8 := by
  have hpre := decodeUint16_ok_lem d h0 h1
  obtain ⟨e, elems, heq, hlen⟩ :=
    decodeU64Loop_partial (leNat ((remaining d).take 2)) 0
      { d with cursor := d.cursor + 2 } msg
      (by dsimp only; omega) (by dsimp only; omega) (by dsimp only; omega)
  refine ⟨e, elems, ?_, ?_⟩
  · show (match DecodeUint16 d with
      | .ok arrLen d2 => decodeU64Loop arrLen 0 d2 msg
      | .error e d2 => .error (.arrayLenReadFailed e) msg d2
      | .fault => .fault) = _
    rw [hpre]
    dsimp only
    rw [heq]
  · exact hlen

theorem decodeUint64Array_partial_witness :
    ∃ e elems,
      DecodeUint64Array
          { buffer := [2, 0, 1, 0, 0, 0, 0, 0, 0, 0, 9, 9, 9], cursor := 0 } [42] =
        .error e ([42] ++ elems)
          { buffer := [2, 0, 1, 0, 0, 0, 0, 0, 0, 0, 9, 9, 9], cursor := 10 } ∧
      elems.length = 1 :=
  decodeUint64Array_partial
    { buffer := [2, 0, 1, 0, 0, 0, 0, 0, 0, 0, 9, 9, 9], cursor := 0 } [42]
    (by decide) (by decide) (by decide)

/-! ## Claim C6: derived-event frame and matched-policies deep copy -/

/-- C6: `buildDerivedEvent` on a matching tuple equals the base event on all
fields except exactly the overwritten ones: identifier and name come from the
skeleton, the arguments pair each schema field's metadata with the supplied
value in schema order (and the count equals the field count), the return
value is reset to 0, the stack trace to the single-element placeholder, and
the matched-policies list becomes a fresh, element-wise-equal copy of the
base's — so mutating the derived event's list never affects the original's or
a sibling derived event's. -/
theorem buildDerivedEvent_frame (base : Event) (skeleton : deriveBase)
    (argsValues : List GoVal) (h : PolicyHeap) (r : Nat)
    (hlen : skeleton.Fields.length = argsValues.length)
    (hmp : base.MatchedPolicies = some r) (hr : r < h.next) :
    ∃ de h2 r2,
      buildDerivedEvent base skeleton argsValues h = (.ok de, h2) ∧
      de.EventID = skeleton.ID ∧
      de.EventName = skeleton.Name ∧
      de.ReturnValue = 0 ∧
      de.StackAddresses = [0] ∧
      de.Args.length = skeleton.Fields.length ∧
      (∀ (i : Nat) (f : DataField) (v : GoVal),
        skeleton.Fields[i]? = some f → argsValues[i]? = some v →
        de.Args[i]? = some { ArgMeta := f.ArgMeta, Value := v }) ∧
      de.ArgsNum = (skeleton.Fields.length : Int) ∧
      de.Timestamp = base.Timestamp ∧
      de.ProcessID = base.ProcessID ∧
      de.ThreadID = base.ThreadID ∧
      de.ContainerID = base.ContainerID ∧
      de.PoliciesVersion = base.PoliciesVersion ∧
      de.MatchedPolicies = some r2 ∧
      r2 ≠ r ∧
      h2.read r2 = h.read r ∧
      h2.read r = h.read r ∧
      (∀ v, (h2.write r2 v).read r = h.read r) ∧
      (∀ v, (h2.write r v).read r2 = h.read r) ∧
      (∀ (skeleton2 : deriveBase) (argsValues2 : List GoVal),
        skeleton2.Fields.length = argsValues2.length →
        ∃ de2 h3 r3,
          buildDerivedEvent base skeleton2 argsValues2 h2 = (.ok de2, h3) ∧
          de2.MatchedPolicies = some r3 ∧ r3 ≠ r2 ∧ r3 ≠ r ∧
          h3.read r3 = h.read r ∧ h3.read r2 = h.read r ∧
          (∀ v, (h3.write r3 v).read r2 = h.read r) ∧
          (∀ v, (h3.write r3 v).read r = h.read r)) := by
  have hrne : r ≠ h.next := by omega
  have hbuild : buildDerivedEvent base skeleton argsValues h =
      (.ok ({ base with
          EventID := skeleton.ID
          EventName := skeleton.Name
          ReturnValue := 0
          StackAddresses := List.replicate 1 0
          Args := (skeleton.Fields.zip argsValues).map
            (fun p => { ArgMeta := p.1.ArgMeta, Value := p.2 })
          ArgsNum := (skeleton.Fields.length : Int)
          MatchedPolicies := some h.next } : Event),
        { next := h.next + 1
          cells := fun i => if i = h.next then h.cells r else h.cells i }) := by
    unfold buildDerivedEvent
    rw [if_neg (show ¬ skeleton.Fields.length ≠ argsValues.length from by simp [hlen]), hmp]
    rfl
  refine ⟨_, _, h.next, hbuild, rfl, rfl, rfl, ?_, ?_, ?_, rfl, rfl, rfl, rfl, rfl, rfl, rfl,
    ?_, ?_, ?_, ?_, ?_, ?_⟩
  · simp [List.replicate]
  · simp [hlen]
  · intro i f v hf hv
    have hz : (skeleton.Fields.zip argsValues)[i]? = some (f, v) :=
      List.getElem?_zip_eq_some.mpr ⟨hf, hv⟩
    simp only [List.getElem?_map]
    rw [hz]
    rfl
  · omega
  · simp [PolicyHeap.read]
  · simp [PolicyHeap.read, hrne]
  · intro v
    simp [PolicyHeap.read, PolicyHeap.write, hrne]
  · intro v
    simp [PolicyHeap.read, PolicyHeap.write, hrne, Ne.symm hrne]
  · intro skeleton2 argsValues2 hlen2
    have hbuild2 : buildDerivedEvent base skeleton2 argsValues2
        ({ next := h.next + 1
           cells := fun i => if i = h.next then h.cells r else h.cells i } : PolicyHeap) =
        (.ok ({ base with
            EventID := skeleton2.ID
            EventName := skeleton2.Name
            ReturnValue := 0
            StackAddresses := List.replicate 1 0
            Args := (skeleton2.Fields.zip argsValues2).map
              (fun p => { ArgMeta := p.1.ArgMeta, Value := p.2 })
            ArgsNum := (skeleton2.Fields.length : Int)
            MatchedPolicies := some (h.next + 1) } : Event),
          { next := h.next + 2
            cells := fun i =>
              if i = h.next + 1 then
                (if r = h.next then h.cells r else h.cells r)
              else if i = h.next then h.cells r else h.cells i }) := by
      unfold buildDerivedEvent
      rw [if_neg (show ¬ skeleton2.Fields.length ≠ argsValues2.length from by simp [hlen2]),
        hmp]
      dsimp only [PolicyHeap.alloc, PolicyHeap.read]
    have hrne2 : r ≠ h.next + 1 := by omega
    refine ⟨_, _, h.next + 1, hbuild2, rfl, ?_, ?_, ?_, ?_, ?_, ?_⟩
    · omega
    · omega
    · simp [PolicyHeap.read, hrne]
    · simp [PolicyHeap.read, hrne]
    · intro v
      simp [PolicyHeap.read, PolicyHeap.write, hrne]
    · intro v
      simp [PolicyHeap.read, PolicyHeap.write, hrne, hrne2]

theorem buildDerivedEvent_frame_witness :
    ∃ de h2 r2,
      buildDerivedEvent sampleEvent
          { Name := "derived", ID := 9,
            Fields := [{ ArgMeta := { Name := "a", Typ := "int" }, Zero := GoVal.num 0 }] }
          [GoVal.num 5] sampleHeap = (.ok de, h2) ∧
      de.EventID = 9 ∧
      de.EventName = "derived" ∧
      de.ReturnValue = 0 ∧
      de.StackAddresses = [0] ∧
      de.Args.length = 1 ∧
      (∀ (i : Nat) (f : DataField) (v : GoVal),
        ([{ ArgMeta := { Name := "a", Typ := "int" }, Zero := GoVal.num 0 }] :
          List DataField)[i]? = some f → ([GoVal.num 5] : List GoVal)[i]? = some v →
        de.Args[i]? = some { ArgMeta := f.ArgMeta, Value := v }) ∧
      de.ArgsNum = 1 ∧
      de.Timestamp = sampleEvent.Timestamp ∧
      de.ProcessID = sampleEvent.ProcessID ∧
      de.ThreadID = sampleEvent.ThreadID ∧
      de.ContainerID = sampleEvent.ContainerID ∧
      de.PoliciesVersion = sampleEvent.PoliciesVersion ∧
      de.MatchedPolicies = some r2 ∧
      r2 ≠ 0 ∧
      h2.read r2 = sampleHeap.read 0 ∧
      h2.read 0 = sampleHeap.read 0 ∧
      (∀ v, (h2.write r2 v).read 0 = sampleHeap.read 0) ∧
      (∀ v, (h2.write 0 v).read r2 = sampleHeap.read 0) ∧
      (∀ (skeleton2 : deriveBase) (argsValues2 : List GoVal),
        skeleton2.Fields.length = argsValues2.length →
        ∃ de2 h3 r3,
          buildDerivedEvent sampleEvent skeleton2 argsValues2 h2 = (.ok de2, h3) ∧
          de2.MatchedPolicies = some r3 ∧ r3 ≠ r2 ∧ r3 ≠ 0 ∧
          h3.read r3 = sampleHeap.read 0 ∧ h3.read r2 = sampleHeap.read 0 ∧
          (∀ v, (h3.write r3 v).read r2 = sampleHeap.read 0) ∧
          (∀ v, (h3.write r3 v).read 0 = sampleHeap.read 0)) :=
  buildDerivedEvent_frame sampleEvent
    { Name := "derived", ID := 9,
      Fields := [{ ArgMeta := { Name := "a", Typ := "int" }, Zero := GoVal.num 0 }] }
    [GoVal.num 5] sampleHeap 0 (by decide) rfl (by decide)

/-! ## Claim C5: schema-mismatch isolation -/

theorem buildDerivedEvent_mismatch (base : Event) (skeleton : deriveBase)
    (argsValues : List GoVal) (h : PolicyHeap)
    (hlen : skeleton.Fields.length ≠ argsValues.length) :
    buildDerivedEvent base skeleton argsValues h =
      (.error (unexpectedArgCountError skeleton.Name skeleton.Fields.length argsValues.length),
        h) := by
  unfold buildDerivedEvent
  rw [if_pos hlen]

theorem buildDerivedEvent_ok (base : Event) (skeleton : deriveBase)
    (argsValues : List GoVal) (h : PolicyHeap)
    (hlen : skeleton.Fields.length = argsValues.length) :
    ∃ de h2, buildDerivedEvent base skeleton argsValues h = (.ok de, h2) := by
  unfold buildDerivedEvent
  rw [if_neg (show ¬ skeleton.Fields.length ≠ argsValues.length from by simp [hlen])]
  cases hm : base.MatchedPolicies with
  | none => exact ⟨_, _, rfl⟩
  | some r => exact ⟨_, _, rfl⟩

/-- C5: a rule that returns one argument tuple of the wrong arity and one of
the right arity yields exactly one derived event (from the matching tuple)
and exactly one `UnexpectedArgumentCount` error for the mismatched tuple; the
mismatched tuple yields no event and does not abort the other tuple. -/
theorem deriveMultipleEvents_schema_mismatch
    (getEventDefinition : Int → EventDefinition) (id : Int)
    (f : Event → Option (List (List GoVal)) × List DeriveError)
    (event : Event) (h : PolicyHeap) (t1 t2 : List GoVal)
    (hf : f event = (some [t1, t2], []))
    (hbad : t1.length ≠ (getEventDefinition id).Fields.length)
    (hgood : t2.length = (getEventDefinition id).Fields.length) :
    ∃ de h2,
      buildDerivedEvent event (makeDeriveBase getEventDefinition id) t2 h = (.ok de, h2) ∧
      deriveMultipleEvents getEventDefinition id f event h =
        (([de],
          [unexpectedArgCountError (getEventDefinition id).Name
            (getEventDefinition id).Fields.length t1.length]), h2) := by
  obtain ⟨de, h2, hok⟩ :=
    buildDerivedEvent_ok event (makeDeriveBase getEventDefinition id) t2 h
      (by simpa [makeDeriveBase] using hgood.symm)
  have hmis :=
    buildDerivedEvent_mismatch event (makeDeriveBase getEventDefinition id) t1 h
      (by simpa [makeDeriveBase] using fun hh => hbad hh.symm)
  refine ⟨de, h2, hok, ?_⟩
  unfold deriveMultipleEvents
  rw [hf]
  dsimp only
  rw [List.foldl_cons, List.foldl_cons, List.foldl_nil]
  dsimp only
  rw [hmis]
  dsimp only
  rw [hok]
  simp [makeDeriveBase, unexpectedArgCountError]

theorem deriveMultipleEvents_schema_mismatch_witness :
    ∃ de h2,
      buildDerivedEvent sampleEvent (makeDeriveBase sampleDefs 9) [GoVal.num 5] sampleHeap =
        (.ok de, h2) ∧
      deriveMultipleEvents sampleDefs 9 (fun _ => (some [[], [GoVal.num 5]], []))
          sampleEvent sampleHeap =
        (([de], [unexpectedArgCountError "d" 1 0]), h2) :=
  deriveMultipleEvents_schema_mismatch sampleDefs 9
    (fun _ => (some [[], [GoVal.num 5]], [])) sampleEvent sampleHeap [] [GoVal.num 5]
    rfl (by decide) rfl

/-! ## Claim C4: assembly completeness -/

theorem foldl_set_length (entries : List (Nat × Argument)) :
    ∀ args : List Argument,
      (entries.foldl (fun as p => as.set p.1 p.2) args).length = args.length := by
  induction entries with
  | nil => intro args; rfl
  | cons q rest ih =>
    intro args
    simp [List.foldl_cons, ih]

theorem decodeArgsLoop_all_ok (entries : List (Nat × Argument)) :
    ∀ args : List Argument, (∀ p ∈ entries, p.1 < args.length) →
      decodeArgsLoop args (entries.map .ok) =
        some (entries.foldl (fun as p => as.set p.1 p.2) args) := by
  induction entries with
  | nil => intro args _; rfl
  | cons q rest ih =>
    intro args hvalid
    obtain ⟨i, a⟩ := q
    simp only [List.map_cons, List.foldl_cons]
    show (if i < args.length then decodeArgsLoop (args.set i a) (rest.map .ok) else none) = _
    rw [if_pos (hvalid (i, a) (List.mem_cons_self _ _))]
    exact ih (args.set i a)
      (fun p hp => by rw [List.length_set]; exact hvalid p (List.mem_cons_of_mem _ hp))

theorem foldl_set_untouched (entries : List (Nat × Argument)) :
    ∀ (args : List Argument) (i : Nat), (∀ p ∈ entries, p.1 ≠ i) →
      (entries.foldl (fun as p => as.set p.1 p.2) args)[i]? = args[i]? := by
  induction entries with
  | nil => intro args i _; rfl
  | cons q rest ih =>
    intro args i hne
    simp only [List.foldl_cons]
    rw [ih _ i (fun p hp => hne p (List.mem_cons_of_mem _ hp))]
    exact List.getElem?_set_ne (hne q (List.mem_cons_self _ _))

theorem foldl_set_supplied (entries : List (Nat × Argument)) :
    ∀ args : List Argument, (entries.map Prod.fst).Nodup →
      (∀ p ∈ entries, p.1 < args.length) →
      ∀ p ∈ entries, (entries.foldl (fun as p => as.set p.1 p.2) args)[p.1]? = some p.2 := by
  induction entries with
  | nil => simp
  | cons q rest ih =>
    intro args hnodup hvalid p hp
    simp only [List.map_cons, List.nodup_cons] at hnodup
    simp only [List.foldl_cons]
    rcases List.mem_cons.mp hp with hp | hp
    · subst hp
      rw [foldl_set_untouched rest _ p.1
        (fun q2 hq2 => fun hc => hnodup.1 (hc ▸ List.mem_map_of_mem Prod.fst hq2))]
      exact List.getElem?_set_self (hvalid p (List.mem_cons_self _ _))
    · exact ih (args.set q.1 q.2) hnodup.2
        (fun p2 hp2 => by rw [List.length_set]; exact hvalid p2 (List.mem_cons_of_mem _ hp2))
        p hp

/-- C4: assembling a schema of `N` fields from a stream of `M < N` argument
reads, each naming a distinct valid schema index with a non-nil decoded
value, yields an `N`-length list in which each supplied index holds its
decoded argument and every other slot holds the schema field's declared
metadata and zero value, in schema order, with no slot left unset. -/
theorem decodeArguments_completeness (evtFields : List DataField)
    (entries : List (Nat × Argument))
    (hnodup : (entries.map Prod.fst).Nodup)
    (hvalid : ∀ p ∈ entries, p.1 < evtFields.length ∧ p.2.Value ≠ GoVal.nil)
    (hM : entries.length < evtFields.length) :
    ∃ res,
      DecodeArguments (List.replicate evtFields.length zeroArgument)
        (entries.map .ok) evtFields = some res ∧
      res.length = evtFields.length ∧
      (∀ p ∈ entries, res[p.1]? = some p.2) ∧
      (∀ (i : Nat) (hi : i < evtFields.length), i ∉ entries.map Prod.fst →
        res[i]? = some { ArgMeta := (evtFields[i]).ArgMeta, Value := (evtFields[i]).Zero }) := by
  have hvalid' : ∀ p ∈ entries, p.1 < (List.replicate evtFields.length zeroArgument).length := by
    intro p hp
    rw [List.length_replicate]
    exact (hvalid p hp).1
  have hloop := decodeArgsLoop_all_ok entries (List.replicate evtFields.length zeroArgument)
    hvalid'
  have hfoldlen :
      (entries.foldl (fun as p => as.set p.1 p.2)
        (List.replicate evtFields.length zeroArgument)).length = evtFields.length := by
    rw [foldl_set_length, List.length_replicate]
  refine ⟨fillMissing
    (entries.foldl (fun as p => as.set p.1 p.2)
      (List.replicate evtFields.length zeroArgument)) evtFields, ?_, ?_, ?_, ?_⟩
  · unfold DecodeArguments
    rw [hloop]
    rfl
  · unfold fillMissing
    rw [List.length_zipWith, hfoldlen, Nat.min_self]
  · intro p hp
    have hsup := foldl_set_supplied entries _ hnodup hvalid' p hp
    unfold fillMissing
    rw [List.getElem?_zipWith']
    rw [hsup]
    rw [List.getElem?_eq_getElem ((hvalid p hp).1)]
    simp [(hvalid p hp).2]
  · intro i hi hnot
    have huntouched := foldl_set_untouched entries
      (List.replicate evtFields.length zeroArgument) i
      (fun p hp => fun hc => hnot (hc ▸ List.mem_map_of_mem Prod.fst hp))
    unfold fillMissing
    rw [List.getElem?_zipWith']
    rw [huntouched, List.getElem?_replicate_of_lt hi, List.getElem?_eq_getElem hi]
    simp [zeroArgument]

theorem decodeArguments_completeness_witness :
    ∃ res,
      DecodeArguments (List.replicate 2 zeroArgument)
        ([(1, sampleArgB)].map .ok) [sampleFieldA, sampleFieldB] = some res ∧
      res.length = 2 ∧
      (∀ p ∈ [((1 : Nat), sampleArgB)], res[p.1]? = some p.2) ∧
      (∀ (i : Nat) (hi : i < 2), i ∉ [(1 : Nat)] →
        res[i]? = some { ArgMeta := (([sampleFieldA, sampleFieldB] : List DataField)[i]).ArgMeta
                         Value := (([sampleFieldA, sampleFieldB] : List DataField)[i]).Zero }) :=
  decodeArguments_completeness [sampleFieldA, sampleFieldB] [(1, sampleArgB)]
    (by decide) (by decide) (by decide)

/-! ## Claim C2: context-header round trip -/

theorem leBytes_length (w : Nat) : ∀ v : Nat, (leBytes w v).length = w := by
  induction w with
  | zero => intro v; rfl
  | succ k ih => intro v; simp [leBytes, ih]

theorem leNat_leBytes (w : Nat) : ∀ v : Nat, v < 2 ^ (8 * w) → leNat (leBytes w v) = v := by
  induction w with
  | zero =>
    intro v hv
    simp only [Nat.mul_zero, pow_zero, Nat.lt_one_iff] at hv
    simp [leBytes, leNat, hv]
  | succ k ih =>
    intro v hv
    have h2 : 2 ^ (8 * (k + 1)) = 2 ^ (8 * k) * 256 := by
      rw [Nat.mul_succ, pow_add]
      norm_num
    have hdiv : v / 256 < 2 ^ (8 * k) := by
      rw [Nat.div_lt_iff_lt_mul (by norm_num : 0 < 256)]
      rw [h2] at hv
      exact hv
    simp only [leBytes, leNat, ih (v / 256) hdiv]
    omega

theorem encSigned_lt (bits : Nat) (x : Int) : encSigned bits x < 2 ^ bits := by
  unfold encSigned
  have hpos : (0 : Int) < 2 ^ bits := by positivity
  have := Int.emod_lt_of_pos x hpos
  have := Int.emod_nonneg x (by positivity : ((2 : Int) ^ bits) ≠ 0)
  omega

theorem toSigned_encSigned32 (x : Int) (h1 : -2147483648 ≤ x) (h2 : x < 2147483648) :
    toSigned 32 (encSigned 32 x) = x := by
  unfold toSigned encSigned
  norm_num
  split <;> omega

theorem toSigned_encSigned64 (x : Int) (h1 : -9223372036854775808 ≤ x)
    (h2 : x < 9223372036854775808) :
    toSigned 64 (encSigned 64 x) = x := by
  unfold toSigned encSigned
  norm_num
  split <;> omega

theorem drop_through {α : Type} (A B : List α) (n : Nat) (h : A.length ≤ n) :
    (A ++ B).drop n = B.drop (n - A.length) := by
  induction A generalizing n with
  | nil => simp
  | cons a t ih =>
    cases n with
    | zero => simp at h
    | succ m =>
      simp only [List.cons_append, List.drop_succ_cons, List.length_cons]
      rw [ih m (by simpa using h)]
      simp [Nat.succ_sub_succ]

theorem take_of_length_eq {α : Type} (A B : List α) (n : Nat) (h : A.length = n) :
    (A ++ B).take n = A := by
  subst h
  exact List.take_left A B

theorem encSigned_lt32 (x : Int) : encSigned 32 x < 4294967296 := by
  have h := encSigned_lt 32 x
  norm_num at h
  exact h

theorem encSigned_lt64 (x : Int) : encSigned 64 x < 18446744073709551616 := by
  have h := encSigned_lt 64 x
  norm_num at h
  exact h

/-- C2: decoding a buffer that holds the 144-byte context header at the
cursor reproduces every header field exactly at its declared offset (the
spec-side encoder `encodeContext` lays the fields out by the spec's offset
table) and advances the cursor by exactly 144; any remaining buffer shorter
than 144 bytes fails with an error, writing no field and leaving the decoder
untouched. -/
theorem decodeContext_roundtrip (pre suffix : List Nat) (c : EventContext) (hWF : c.WF) :
    DecodeContext { buffer := pre ++ encodeContext c ++ suffix, cursor := (pre.length : Int) } =
      .ok c { buffer := pre ++ encodeContext c ++ suffix,
              cursor := (pre.length : Int) + 144 } ∧
    (∀ d : Decoder, 0 ≤ d.cursor → d.cursor ≤ (d.buffer.length : Int) →
      (d.buffer.length : Int) - d.cursor < 144 →
      DecodeContext d =
        .error (.contextBufferTooSmall (d.buffer.length - d.cursor.toNat) 144) d) := by
  constructor
  · simp only [EventContext.WF] at hWF
    obtain ⟨w1, w2, w3, w4, w5, w6, w7, w8, w9, w10, w11, w12, hcl, hul, w15, w16, w17,
      w18, w19, w20, w21, w22, w23, w24, w25, w26, w27⟩ := hWF
    norm_num at w1 w2 w3 w4 w5 w6 w7 w8 w9 w10 w11 w12 w15 w16 w17 w18 w19 w20 w21 w22 w23 w24 w25 w26 w27
    have henclen : (encodeContext c).length = 144 := by
      simp [encodeContext, leBytes_length, hcl, hul]
    have hin : inBounds
        { buffer := pre ++ encodeContext c ++ suffix, cursor := (pre.length : Int) } := by
      constructor
      · exact Int.natCast_nonneg pre.length
      · show (pre.length : Int) ≤ ((pre ++ encodeContext c ++ suffix).length : Int)
        push_cast [List.length_append]
        omega
    have hrest : remaining
        { buffer := pre ++ encodeContext c ++ suffix, cursor := (pre.length : Int) } =
        encodeContext c ++ suffix := by
      simp [remaining, List.drop_left]
    unfold DecodeContext
    rw [if_pos hin]
    rw [if_neg (show ¬ (remaining _).length < EventContext.GetSizeBytes from by
      rw [hrest]
      simp [EventContext.GetSizeBytes, List.length_append, henclen])]
    rw [hrest]
    simp [goSlice, encodeContext, EventContext.GetSizeBytes, List.append_assoc,
      drop_through, take_of_length_eq, leBytes_length, hcl, hul,
      leNat_leBytes, encSigned_lt32, encSigned_lt64, toSigned_encSigned32,
      toSigned_encSigned64, w1, w2, w3, w4, w5, w6, w7, w8, w9, w10, w11, w12, w15, w16,
      w17, w18, w19, w20, w21, w22, w23, w24, w25, w26, w27]
  · intro d h0 h1 h2
    unfold DecodeContext
    rw [if_pos (show inBounds d from ⟨h0, h1⟩),
      if_pos (show (remaining d).length < EventContext.GetSizeBytes from by
        rw [remaining_length]
        unfold EventContext.GetSizeBytes
        omega),
      remaining_length]
    rfl

theorem decodeContext_roundtrip_witness :
    DecodeContext { buffer := [7] ++ encodeContext sampleContext ++ [8], cursor := 1 } =
      .ok sampleContext
        { buffer := [7] ++ encodeContext sampleContext ++ [8], cursor := 1 + 144 } ∧
    DecodeContext { buffer := [1, 2, 3], cursor := 0 } =
      .error (.contextBufferTooSmall 3 144) { buffer := [1, 2, 3], cursor := 0 } :=
  ⟨(decodeContext_roundtrip [7] [8] sampleContext (by decide)).1,
   (decodeContext_roundtrip [7] [8] sampleContext (by decide)).2
     { buffer := [1, 2, 3], cursor := 0 } (by decide) (by decide) (by decide)⟩

end Tracee
